import Mathlib

/-!
Shallow embedding of the nicedear avatar generator (src/index.ts, src/utils.ts).

JavaScript numbers are modelled as follows: 32-bit signed truncation (the
`|= 0` / `<<` operations) is explicit arithmetic modulo 2^32 on `Int`;
`Math.abs` is `Int.natAbs`; strings are handled through their UTF-16 code
units (a `List Nat`), which `String.charCodeAt` exposes in JavaScript.
Filesystem directory listings are passed in as an explicit function
argument, and the external image engine (sharp) is modelled as the list of
operations requested of it.
-/

namespace Nicedear

/-- Truncation of an integer to the signed 32-bit range, the effect of the
JavaScript `| 0` operation: the unique value in [-2^31, 2^31) congruent
to `n` modulo 2^32. -/
def toInt32 (n : Int) : Int := (n + 2 ^ 31) % 2 ^ 32 - 2 ^ 31

/-- One loop iteration of `hashString` from src/index.ts:
`hash = (hash << 5) - hash + chr; hash |= 0`. The `<<` operator itself
truncates its result to 32 bits, hence the inner `toInt32`. -/
def hashStep (h : Int) (c : Nat) : Int := toInt32 (toInt32 (h * 32) - h + (c : Int))

/-- The rolling hash of src/index.ts applied to a list of UTF-16 code units:
starts at 0 and applies `hashStep` for each character code. -/
def hashCodeUnits (cs : List Nat) : Int := cs.foldl hashStep 0

/-- UTF-16 code units of a string; for characters in the basic multilingual
plane this is exactly what `charCodeAt` yields in JavaScript. -/
def charCodes (s : String) : List Nat := s.toList.map Char.toNat

/-- The seed hash `hashString` of src/index.ts. -/
def hashString (s : String) : Int := hashCodeUnits (charCodes s)

/-- One step of the hash as the specification words it: `hash*31 + charCode`
truncated to the 32-bit signed range. -/
def specHashStep (h : Int) (c : Nat) : Int := toInt32 (h * 31 + (c : Int))

/-- The specification's multiply-by-31 rolling hash over code units. -/
def specHash (cs : List Nat) : Int := cs.foldl specHashStep 0

/-- `Math.abs` followed by use as a nonnegative integer. -/
def jsAbs (n : Int) : Nat := n.natAbs

/-- The `Feature` record of src/index.ts: a named visual layer with its
z-index, the list of candidate asset paths and optional placement offsets. -/
structure Feature where
  name : String
  zIndex : Nat
  choices : List String
  top : Option Nat
  left : Option Nat
deriving DecidableEq, Repr

/-- Selection of `feature.choices[hash % feature.choices.length]` in
JavaScript: when `choices` is empty the modulus is `NaN` and the indexing
yields `undefined`, modelled as `none`; otherwise the element at
`hash % length` is returned. `List.get?` captures both cases, because for
an empty list `hash % 0 = hash` in `Nat` and `get?` is `none`. -/
def selectChoice (hash : Nat) (choices : List String) : Option String :=
  choices.get? (hash % choices.length)

/-- `generateImagePathsFromSeed` of src/index.ts: hashes the seed once,
takes the absolute value, and maps every feature to the choice at
`abs(hash) mod choices.length` (or `undefined` for an empty choice list). -/
def generateImagePathsFromSeed (features : List Feature) (seed : String) :
    List (Option String) :=
  let hash := jsAbs (hashString seed)
  features.map (fun feature => selectChoice hash feature.choices)

/-- Join of two path segments, the effect of `path.join` on normal
separator-free segments as used throughout src/index.ts. -/
def pathJoin (a b : String) : String := a ++ "/" ++ b

/-- Last path component, as Node's `path` module computes it before taking
an extension. -/
def basenameOf (s : String) : String :=
  match (s.split (fun c => c = '/')).getLast? with
  | some b => b
  | none => s

/-- Index of the last dot of a character list, if any. -/
def lastDotIdx (cs : List Char) : Option Nat :=
  (List.range cs.length).foldl
    (fun acc i => if cs.get? i = some '.' then some i else acc) none

/-- Node's `path.extname`: the suffix of the basename from its last dot,
or the empty string when there is no dot or the only dot is the leading
character of a dotfile. -/
def extname (s : String) : String :=
  let b := (basenameOf s).toList
  match lastDotIdx b with
  | none => ""
  | some 0 => ""
  | some i => String.mk (b.drop i)

/-- The supported image extensions of src/utils.ts. -/
def SupportedExtensions : List String := [".svg", ".jpg", ".png", ".jpeg"]

/-- `isPathImage` of src/utils.ts: the extension is in the supported set
(the second disjunct of the source prepends one more dot and can never
match an `extname` result, but is kept for fidelity). -/
def isPathImage (filePath : String) : Bool :=
  SupportedExtensions.contains (extname filePath)
    || SupportedExtensions.contains ("." ++ extname filePath)

/-- The `FeatureLoadData` record of src/index.ts: name and directory of a
feature, plus optional placement offsets. -/
structure FeatureLoadData where
  name : String
  dir : String
  top : Option Nat
  left : Option Nat
deriving DecidableEq, Repr

/-- The inner `loadFeature` of `loadFeatures`: lists the feature directory
through the filesystem provider `fsys` (modelling `getFilesInDir`), keeps
the image files, and builds the `Feature` at the given z-index. -/
def loadFeature (fsys : String → List String) (fdata : FeatureLoadData)
    (zIndex : Nat) : Feature :=
  { name := fdata.name
    zIndex := zIndex
    choices := (fsys fdata.dir).filter isPathImage
    top := fdata.top
    left := fdata.left }

/-- Recursion underlying `featureData.map((fdata, zIndex) => ...)`:
each entry is loaded at the z-index equal to its position. -/
def loadFeaturesAux (fsys : String → List String) :
    List FeatureLoadData → Nat → List Feature
  | [], _ => []
  | fdata :: rest, z => loadFeature fsys fdata z :: loadFeaturesAux fsys rest (z + 1)

/-- `loadFeatures` of src/index.ts. -/
def loadFeatures (fsys : String → List String) (featureData : List FeatureLoadData) :
    List Feature :=
  loadFeaturesAux fsys featureData 0

/-- `loadFeaturesFromDir` of src/index.ts: resolves the theme asset
directory (an empty or missing theme falls back to open-peeps, by
JavaScript falsiness), builds the `FeatureLoadData` list — the default
pair head, face when no features are requested, otherwise head, face,
facialHair in that fixed order filtered by membership in the request —
and loads the features. `dirname` stands for the module's `__dirname`. -/
def loadFeaturesFromDir (fsys : String → List String) (dirname : String)
    (theme : Option String) (requiredFeatures : Option (List String)) :
    List Feature :=
  let assetsDir :=
    match theme with
    | none => pathJoin (pathJoin dirname "assets") "open-peeps"
    | some t =>
      if t = "" then pathJoin (pathJoin dirname "assets") "open-peeps"
      else pathJoin (pathJoin dirname "assets") t
  let headFD : FeatureLoadData :=
    { name := "head", dir := pathJoin assetsDir "head", top := none, left := none }
  let faceFD : FeatureLoadData :=
    { name := "face", dir := pathJoin assetsDir "face", top := some 175, left := some 200 }
  let facialHairFD : FeatureLoadData :=
    { name := "facialHair", dir := pathJoin assetsDir "facial-hair"
      top := some 325, left := some 160 }
  let featureData : List FeatureLoadData :=
    match requiredFeatures with
    | none => [headFD, faceFD]
    | some rf =>
      if rf.length = 0 then [headFD, faceFD]
      else
        (if rf.contains "head" then [headFD] else [])
          ++ (if rf.contains "face" then [faceFD] else [])
          ++ (if rf.contains "facialHair" then [facialHairFD] else [])
  loadFeatures fsys featureData

/-- An RGBA color value as built by `hexToRgbA` in src/utils.ts. The alpha
channel only ever takes the default value 1 at every call site, so it is
modelled as a natural number. -/
structure Rgba where
  r : Nat
  g : Nat
  b : Nat
  alpha : Nat
deriving DecidableEq, Repr

/-- Membership in the regex character class [A-Fa-f0-9]. -/
def isHexDigit (c : Char) : Bool :=
  (('A' ≤ c && c ≤ 'F') || ('a' ≤ c && c ≤ 'f') || ('0' ≤ c && c ≤ '9'))

/-- The test performed by the anchored regex of src/utils.ts: a leading
hash sign followed by exactly one or two groups of three hex digits. -/
def matchesHexColor (s : String) : Bool :=
  match s.toList with
  | '#' :: rest => (rest.length = 3 || rest.length = 6) && rest.all isHexDigit
  | _ => false

/-- Numeric value of one hex digit. -/
def hexDigitVal (c : Char) : Nat :=
  if '0' ≤ c && c ≤ '9' then c.toNat - 48
  else if 'a' ≤ c && c ≤ 'f' then c.toNat - 87
  else c.toNat - 55

/-- Value of a hex digit string, as `Number('0x' + ...)` computes it. -/
def hexVal (cs : List Char) : Nat := cs.foldl (fun acc c => 16 * acc + hexDigitVal c) 0

/-- `hexToRgbA` of src/utils.ts with its default alpha of 1: on a valid
3- or 6-digit hex color it expands a 3-digit shorthand by doubling each
digit, parses the six digits as a number and extracts the byte lanes;
any other string throws, modelled as `none`. -/
def hexToRgbA (hex : String) : Option Rgba :=
  if matchesHexColor hex then
    let c := (hex.toList).drop 1
    let c :=
      match c with
      | [a, b, d] => [a, a, b, b, d, d]
      | _ => c
    let n := hexVal c
    some { r := (n >>> 16) &&& 255, g := (n >>> 8) &&& 255, b := n &&& 255, alpha := 1 }
  else none

/-- The `Params` bag of src/index.ts. Numeric parameters are modelled at
integer precision (the claims under study never depend on fractional
values), and a missing field is `none`, matching `undefined`. -/
structure Params where
  mirror : Option Bool
  rotate : Option Int
  background : Option String
  skincolor : Option String
  hairColor : Option String
  scale : Option Nat
  transalteX : Option Int
  transalteY : Option Int
  features : Option (List String)
deriving DecidableEq, Repr

/-- A params value with every field absent. -/
def noParams : Params :=
  { mirror := none, rotate := none, background := none, skincolor := none
    hairColor := none, scale := none, transalteX := none, transalteY := none
    features := none }

/-- An operation requested of the external image engine by
`applyTransformations`: a horizontal flip (`flop`), a rotation with a fill
color for the exposed area, or a resize to a target width. -/
inductive ImgOp where
  | flop : ImgOp
  | rotate (deg : Int) (bg : Rgba) : ImgOp
  | resize (width : Nat) : ImgOp
deriving DecidableEq, Repr

/-- Truthiness of an optional boolean, as `params?.mirror` is tested. -/
def optBoolTruthy : Option Bool → Bool
  | some b => b
  | none => false

/-- Truthiness of an optional integer: zero and `undefined` are falsy. -/
def optIntTruthy : Option Int → Bool
  | some n => n != 0
  | none => false

/-- `Math.round(w * 0.5)` on a natural width: exact halves round up. -/
def halfWidth (w : Nat) : Nat := (w + 1) / 2

/-- `applyTransformations` of src/index.ts as the sequence of operations it
requests of the image engine: a flop when mirroring is requested, then a
rotation with a fully transparent white fill when a nonzero angle is
requested, then — whenever the metadata exposes a width — a resize to
`Math.round(width * 0.5)`, further multiplied by the scale parameter when
that is present and nonzero. -/
def applyTransformations (origWidth : Option Nat) (params : Params) : List ImgOp :=
  (if optBoolTruthy params.mirror then [ImgOp.flop] else [])
    ++ (match params.rotate with
        | some d => if d != 0 then [ImgOp.rotate d { r := 255, g := 255, b := 255, alpha := 0 }] else []
        | none => [])
    ++ (match origWidth with
        | some w =>
          let width := halfWidth w
          let width :=
            match params.scale with
            | some s => if s != 0 then width * s else width
            | none => width
          [ImgOp.resize width]
        | none => [])

/-- A JSON string literal. -/
def quoteStr (s : String) : String := "\"" ++ s ++ "\""

/-- `JSON.stringify` applied to a `Params` object as constructed by the CLI
and HTTP entry points: keys appear in declaration order and fields holding
`undefined` are omitted. -/
def stringifyParams (p : Params) : String :=
  let fields : List String :=
    (match p.mirror with
     | some b => [quoteStr "mirror" ++ ":" ++ (if b then "true" else "false")]
     | none => [])
    ++ (match p.rotate with
        | some d => [quoteStr "rotate" ++ ":" ++ toString d]
        | none => [])
    ++ (match p.background with
        | some s => [quoteStr "background" ++ ":" ++ quoteStr s]
        | none => [])
    ++ (match p.skincolor with
        | some s => [quoteStr "skincolor" ++ ":" ++ quoteStr s]
        | none => [])
    ++ (match p.hairColor with
        | some s => [quoteStr "hairColor" ++ ":" ++ quoteStr s]
        | none => [])
    ++ (match p.scale with
        | some s => [quoteStr "scale" ++ ":" ++ toString s]
        | none => [])
    ++ (match p.transalteX with
        | some s => [quoteStr "transalteX" ++ ":" ++ toString s]
        | none => [])
    ++ (match p.transalteY with
        | some s => [quoteStr "transalteY" ++ ":" ++ toString s]
        | none => [])
    ++ (match p.features with
        | some l =>
          [quoteStr "features" ++ ":[" ++ String.intercalate "," (l.map quoteStr) ++ "]"]
        | none => [])
  "\x7b" ++ String.intercalate "," fields ++ "\x7d"

/-- Characters removed by the `replace` regex in `api_call`: both braces,
the double quote and the colon. -/
def isStrippedChar (c : Char) : Bool :=
  c = Char.ofNat 123 || c = Char.ofNat 125 || c = '"' || c = ':'

/-- The `replace` call of `api_call` deleting braces, quotes and colons. -/
def stripJsonChars (s : String) : String :=
  String.mk (s.toList.filter (fun c => !(isStrippedChar c)))

/-- Template-literal interpolation of a possibly undefined string. -/
def optStr : Option String → String
  | some s => s
  | none => "undefined"

/-- The string hashed by `api_call` to fingerprint a request. -/
def fingerprintString (argSeed theme : Option String) (p : Params) : String :=
  optStr argSeed ++ "_" ++ optStr theme ++ "_" ++ stripJsonChars (stringifyParams p)

/-- The `pathHash` computed in `api_call`. -/
def pathHashOf (argSeed theme : Option String) (p : Params) : Nat :=
  jsAbs (hashString (fingerprintString argSeed theme p))

/-- `readSeed` of src/utils.ts: when the process argument vector has more
than two entries the third entry wins, otherwise the supplied default. -/
def readSeed (argv : List String) (defaultSeed : String) : String :=
  if 2 < argv.length then argv.getD 2 "" else defaultSeed

/-- The cache file name checked by `api_call`, built from the raw seed
argument and the fingerprint hash. -/
def cachePathOf (argSeed theme : Option String) (p : Params) : String :=
  "_output/" ++ optStr argSeed ++ toString (pathHashOf argSeed theme p) ++ ".png"

/-- The `seedString` of `api_call`: the seed argument, or the random
fallback when the argument is absent or empty (JavaScript falsiness of
the empty string under the or-else operator). -/
def seedStringOf (argSeed : Option String) (rand : String) : String :=
  match argSeed with
  | some s => if s = "" then rand else s
  | none => rand

/-- Termination of one `api_call`: the path a call returns, or the message
of the exception it throws. -/
inductive CallResult where
  | ok (path : String) : CallResult
  | threw (msg : String) : CallResult
deriving DecidableEq, Repr

/-- Default opaque white canvas background of src/index.ts. -/
def bgDefault : Rgba := { r := 255, g := 255, b := 255, alpha := 1 }

/-- Default skin color of src/index.ts. -/
def skinDefault : Rgba := { r := 255, g := 182, b := 193, alpha := 1 }

/-- Default hair color of src/index.ts. -/
def hairDefault : Rgba := { r := 0, g := 0, b := 0, alpha := 1 }

/-- The conditional `c ? hexToRgbA(c) : default` of src/index.ts: an
absent or empty (falsy) color yields the default, a present one is parsed
by `hexToRgbA`, whose failure (`none`) models the thrown Bad Hex error. -/
def colorOrDefault (c : Option String) (dflt : Rgba) : Option Rgba :=
  match c with
  | some s => if s = "" then some dflt else hexToRgbA s
  | none => some dflt

/-- The three color computations of `api_call` (background, then skin,
then hair, in source order): `none` as soon as one of them throws. -/
def parsedColors (p : Params) : Option (Rgba × Rgba × Rgba) :=
  match colorOrDefault p.background bgDefault with
  | none => none
  | some bg =>
    match colorOrDefault p.skincolor skinDefault with
    | none => none
    | some skin =>
      match colorOrDefault p.hairColor hairDefault with
      | none => none
      | some hair => some (bg, skin, hair)

/-- Observable outcome of one `api_call`: the filesystem afterwards, the
returned path or thrown error, whether the catalog build and render
pipeline ran, the seed handed to it (if it ran) and the asset selection
it computed. -/
structure ApiResult where
  files : List String
  result : CallResult
  rendered : Bool
  seedUsed : Option String
  selection : List (Option String)
deriving DecidableEq, Repr

/-- `api_call` of src/index.ts over an explicit environment: `fsys` and
`dirname` model the asset filesystem, `files` the set of files already in
the output directory, `argv` the process argument vector and `rand` the
random fallback seed. The fingerprint hash is computed from the seed
argument, theme and stripped parameter serialization; when the cache file
named by the seed argument exists the call returns it at once. Otherwise
the catalog is built and a selection is generated from the seed produced
by `readSeed`; then the background, skin and hair colors are parsed, and
an invalid hex color throws out of the call, leaving the filesystem
unchanged; on success the artifact named by the `readSeed` seed (possibly
different from the checked cache name) is written and returned. -/
def api_call (fsys : String → List String) (dirname : String)
    (files : List String) (argv : List String) (rand : String)
    (argSeed theme : Option String) (p : Params) : ApiResult :=
  let cachePath := cachePathOf argSeed theme p
  if files.contains cachePath then
    { files := files, result := CallResult.ok cachePath, rendered := false
      seedUsed := none, selection := [] }
  else
    let seed := readSeed argv (seedStringOf argSeed rand)
    let features := loadFeaturesFromDir fsys dirname theme p.features
    let selection := generateImagePathsFromSeed features seed
    match parsedColors p with
    | some _ =>
      let outPath := "_output/" ++ seed ++ toString (pathHashOf argSeed theme p) ++ ".png"
      { files := outPath :: files, result := CallResult.ok outPath, rendered := true
        seedUsed := some seed, selection := selection }
    | none =>
      { files := files, result := CallResult.threw "Bad Hex", rendered := true
        seedUsed := some seed, selection := selection }

/-- A filesystem provider whose directories are all empty. -/
def emptyFsys : String → List String := fun _ => []

/-- A two-feature catalog used to instantiate selection theorems. -/
def demoFeatures : List Feature :=
  [{ name := "head", zIndex := 0, choices := ["h0.svg", "h1.svg"], top := none, left := none },
   { name := "face", zIndex := 1, choices := ["f0.svg", "f1.svg", "f2.svg"],
     top := some 175, left := some 200 }]

/-- A feature whose choice list is empty, as produced from a directory with
no qualifying assets. -/
def emptyChoicesFeature : Feature :=
  { name := "head", zIndex := 0, choices := [], top := none, left := none }

/-- The transparent white fill used for rotation in src/index.ts. -/
def transparentFill : Rgba := { r := 255, g := 255, b := 255, alpha := 0 }

/-- A params value whose background is the invalid hex color red, the
README example invocation. -/
def redParams : Params := { noParams with background := some "red" }

theorem toInt32_emod (a : Int) : toInt32 a % 2 ^ 32 = a % 2 ^ 32 := by
  unfold toInt32
  omega

theorem toInt32_congr (a b : Int) (h : a % 2 ^ 32 = b % 2 ^ 32) :
    toInt32 a = toInt32 b := by
  unfold toInt32
  omega

theorem toInt32_range (a : Int) : -2 ^ 31 ≤ toInt32 a ∧ toInt32 a < 2 ^ 31 := by
  unfold toInt32
  constructor <;> omega

theorem hashStep_eq_specHashStep (h : Int) (c : Nat) :
    hashStep h c = specHashStep h c := by
  unfold hashStep specHashStep
  apply toInt32_congr
  have h32 : toInt32 (h * 32) % 2 ^ 32 = h * 32 % 2 ^ 32 := toInt32_emod (h * 32)
  omega

theorem foldl_hashStep_eq_spec (cs : List Nat) :
    ∀ h : Int, cs.foldl hashStep h = cs.foldl specHashStep h := by
  induction cs with
  | nil => intro h; rfl
  | cons c cs ih =>
    intro h
    simp only [List.foldl_cons, hashStep_eq_specHashStep, ih]

theorem hashCodeUnits_eq_specHash (cs : List Nat) : hashCodeUnits cs = specHash cs :=
  foldl_hashStep_eq_spec cs 0

/-- C1: for every feature list whose features all have available choices
and every seed, generateImagePathsFromSeed returns exactly one chosen
asset path per feature in catalog order, the index being
abs(hash(seed)) mod choices.length with the single hash value shared by
all features, so two features with equal choice counts select the same
relative index. -/
theorem C1_selection_per_feature (features : List Feature) (seed : String)
    (hne : ∀ f ∈ features, f.choices ≠ []) :
    (generateImagePathsFromSeed features seed).length = features.length ∧
    (∀ (i : Nat) (f : Feature), features[i]? = some f →
      ∃ c, f.choices[jsAbs (hashString seed) % f.choices.length]? = some c ∧
        (generateImagePathsFromSeed features seed)[i]? = some (some c)) ∧
    (∀ f g : Feature, f ∈ features → g ∈ features → f.choices.length = g.choices.length →
      jsAbs (hashString seed) % f.choices.length
        = jsAbs (hashString seed) % g.choices.length) := by
  refine ⟨by simp [generateImagePathsFromSeed], ?_, ?_⟩
  · intro i f hif
    have hmem : f ∈ features := List.getElem?_mem hif
    have hlen : 0 < f.choices.length := List.length_pos.mpr (hne f hmem)
    have hidx : jsAbs (hashString seed) % f.choices.length < f.choices.length :=
      Nat.mod_lt _ hlen
    obtain ⟨c, hc⟩ :
        ∃ c, f.choices[jsAbs (hashString seed) % f.choices.length]? = some c := by
      rw [List.getElem?_eq_getElem hidx]
      exact ⟨_, rfl⟩
    refine ⟨c, hc, ?_⟩
    simp only [generateImagePathsFromSeed, List.getElem?_map, hif, Option.map_some,
      Option.some.injEq]
    simp [selectChoice, List.get?_eq_getElem?, hc]
  · intro f g _ _ hlen
    rw [hlen]

/-- Witness for C1 on a concrete two-feature catalog and the seed "foo". -/
theorem C1_witness :
    (generateImagePathsFromSeed demoFeatures "foo").length = demoFeatures.length :=
  (C1_selection_per_feature demoFeatures "foo" (by decide)).1

/-- C2: the seed hash is the rolling multiply-by-31 hash truncated to the
signed 32-bit range at every step, the hash of the empty string is 0, and
the hash of "foo" is the reference value 101574. -/
theorem C2_hash_algorithm :
    (∀ cs : List Nat, hashCodeUnits cs = specHash cs) ∧
    (∀ (h : Int) (c : Nat), -2 ^ 31 ≤ hashStep h c ∧ hashStep h c < 2 ^ 31) ∧
    hashString "" = 0 ∧ hashString "foo" = 101574 :=
  ⟨hashCodeUnits_eq_specHash, fun h c => toInt32_range (toInt32 (h * 32) - h + (c : Int)),
    by decide, by decide⟩

/-- Counterexample for C3: a feature with an empty choice list does not
make selection fail — generateImagePathsFromSeed returns an undefined
(`none`) entry — and a catalog build over directories with zero
qualifying assets returns features with empty choice lists instead of
raising any error. -/
theorem C3_counterexample :
    generateImagePathsFromSeed [emptyChoicesFeature] "foo" = [none] ∧
    (loadFeaturesFromDir emptyFsys "d" none none).map Feature.choices = [[], []] := by
  decide

/-- C3 as amended: a selected feature with an empty choice list is mapped
to an undefined (`none`) entry while every other feature still receives
its entry (the feature is not skipped: the output keeps one entry per
feature); no error is raised at the selection step and no CatalogError
exists in the code. -/
theorem C3_amended_undefined_choice (features : List Feature) (seed : String) :
    (generateImagePathsFromSeed features seed).length = features.length ∧
    (∀ (i : Nat) (f : Feature), features[i]? = some f → f.choices = [] →
      (generateImagePathsFromSeed features seed)[i]? = some none) := by
  refine ⟨by simp [generateImagePathsFromSeed], ?_⟩
  intro i f hif hch
  simp [generateImagePathsFromSeed, List.getElem?_map, hif, selectChoice, hch]

/-- Witness for C3's amended statement at the empty-choices feature. -/
theorem C3_witness :
    (generateImagePathsFromSeed [emptyChoicesFeature] "foo")[0]? = some none :=
  (C3_amended_undefined_choice [emptyChoicesFeature] "foo").2 0 emptyChoicesFeature rfl rfl

theorem loadFeaturesAux_map_name (fsys : String → List String)
    (fds : List FeatureLoadData) :
    ∀ z : Nat, (loadFeaturesAux fsys fds z).map Feature.name = fds.map FeatureLoadData.name := by
  induction fds with
  | nil => intro z; rfl
  | cons fd rest ih =>
    intro z
    simp [loadFeaturesAux, loadFeature, ih]

theorem loadFeaturesFromDir_names (fsys : String → List String) (dirname : String)
    (theme : Option String) (rf : List String) (hne : rf ≠ []) :
    (loadFeaturesFromDir fsys dirname theme (some rf)).map Feature.name
      = List.filter (fun n => rf.contains n) ["head", "face", "facialHair"] := by
  unfold loadFeaturesFromDir loadFeatures
  have hlen : ¬ rf.length = 0 := by
    simpa [List.length_eq_zero] using hne
  simp only [hlen, if_false]
  rw [loadFeaturesAux_map_name]
  by_cases hh : "head" ∈ rf <;> by_cases hf : "face" ∈ rf
    <;> by_cases hfh : "facialHair" ∈ rf
    <;> simp [hh, hf, hfh, List.filter, List.elem_eq_mem]


theorem loadFeaturesAux_zIndex (fsys : String → List String)
    (fds : List FeatureLoadData) :
    ∀ (z i : Nat) (f : Feature), (loadFeaturesAux fsys fds z)[i]? = some f →
      f.zIndex = z + i := by
  induction fds with
  | nil => intro z i f h; simp [loadFeaturesAux] at h
  | cons fd rest ih =>
    intro z i f h
    match i with
    | 0 =>
      simp [loadFeaturesAux] at h
      subst h
      simp [loadFeature]
    | i + 1 =>
      simp [loadFeaturesAux] at h
      have := ih (z + 1) i f h
      omega

theorem loadFeatures_zIndex (fsys : String → List String)
    (fds : List FeatureLoadData) (i : Nat) (f : Feature)
    (h : (loadFeatures fsys fds)[i]? = some f) : f.zIndex = i := by
  have := loadFeaturesAux_zIndex fsys fds 0 i f h
  omega

/-- C5: catalogs built from a nonempty request are in the fixed canonical
priority order head, face, facialHair regardless of request order, with
z-index assigned by position, and requesting facialHair then head yields
the catalog head, facialHair. -/
theorem C5_canonical_order (fsys : String → List String) (dirname : String)
    (theme : Option String) (rf : List String) (hne : rf ≠ []) :
    ((loadFeaturesFromDir fsys dirname theme (some rf)).map Feature.name
      = List.filter (fun n => rf.contains n) ["head", "face", "facialHair"]) ∧
    (∀ (i : Nat) (f : Feature),
      (loadFeaturesFromDir fsys dirname theme (some rf))[i]? = some f → f.zIndex = i) ∧
    ((loadFeaturesFromDir fsys dirname theme (some ["facialHair", "head"])).map Feature.name
      = ["head", "facialHair"]) := by
  refine ⟨loadFeaturesFromDir_names fsys dirname theme rf hne, ?_, ?_⟩
  · intro i f h
    unfold loadFeaturesFromDir at h
    exact loadFeatures_zIndex fsys _ i f h
  · rw [loadFeaturesFromDir_names fsys dirname theme ["facialHair", "head"] (by decide)]
    decide

/-- Witness for C5 at the request facialHair, head. -/
theorem C5_witness :
    (loadFeaturesFromDir emptyFsys "d" none (some ["facialHair", "head"])).map Feature.name
      = ["head", "facialHair"] :=
  (C5_canonical_order emptyFsys "d" none ["facialHair", "head"] (by decide)).2.2

/-- C6: with an absent or empty request the catalog is exactly head then
face, and facialHair appears in a catalog only when the request contains
it. -/
theorem C6_default_features (fsys : String → List String) (dirname : String)
    (theme : Option String) :
    ((loadFeaturesFromDir fsys dirname theme none).map Feature.name = ["head", "face"]) ∧
    ((loadFeaturesFromDir fsys dirname theme (some [])).map Feature.name = ["head", "face"]) ∧
    (∀ rf : List String,
      "facialHair" ∈ (loadFeaturesFromDir fsys dirname theme (some rf)).map Feature.name →
        "facialHair" ∈ rf) := by
  refine ⟨?_, ?_, ?_⟩
  · unfold loadFeaturesFromDir loadFeatures
    rw [loadFeaturesAux_map_name]
    rfl
  · unfold loadFeaturesFromDir loadFeatures
    rw [loadFeaturesAux_map_name]
    rfl
  · intro rf hmem
    rcases eq_or_ne rf [] with hrf | hrf
    · subst hrf
      unfold loadFeaturesFromDir loadFeatures at hmem
      rw [loadFeaturesAux_map_name] at hmem
      simp at hmem
    · rw [loadFeaturesFromDir_names fsys dirname theme rf hrf] at hmem
      have := List.of_mem_filter hmem
      simpa [List.elem_eq_mem] using this

/-- Witness for C6: a request containing facialHair indeed contains it. -/
theorem C6_witness : "facialHair" ∈ (["facialHair"] : List String) :=
  (C6_default_features emptyFsys "d" none).2.2 ["facialHair"] (by decide)

/-- C10: a nonempty request containing none of the recognized names head,
face, facialHair (such as the hyphenated spelling facial-hair) yields an
empty catalog — the default pair applies only to an absent or empty
request — and selection over the empty catalog yields the empty list, so
the render proceeds with zero layers. -/
theorem C10_unrecognized_features (fsys : String → List String) (dirname : String)
    (theme : Option String) (rf : List String) (seed : String) (hne : rf ≠ [])
    (hh : "head" ∉ rf) (hf : "face" ∉ rf) (hfh : "facialHair" ∉ rf) :
    loadFeaturesFromDir fsys dirname theme (some rf) = [] ∧
    generateImagePathsFromSeed (loadFeaturesFromDir fsys dirname theme (some rf)) seed
      = [] := by
  have hempty : loadFeaturesFromDir fsys dirname theme (some rf) = [] := by
    unfold loadFeaturesFromDir loadFeatures
    have hlen : ¬ rf.length = 0 := by
      simpa [List.length_eq_zero] using hne
    simp only [hlen, if_false]
    simp [hh, hf, hfh, List.elem_eq_mem, loadFeaturesAux]
  exact ⟨hempty, by rw [hempty]; rfl⟩

/-- Witness for C10 at the hyphenated request facial-hair. -/
theorem C10_witness :
    loadFeaturesFromDir emptyFsys "d" none (some ["facial-hair"]) = [] ∧
    generateImagePathsFromSeed (loadFeaturesFromDir emptyFsys "d" none (some ["facial-hair"]))
      "foo" = [] :=
  C10_unrecognized_features emptyFsys "d" none ["facial-hair"] "foo"
    (by decide) (by decide) (by decide) (by decide)

/-- C7: hexToRgbA yields opaque white for both the 6-digit and the 3-digit
white, it rejects the sample invalid string, and every string that does
not match the 3- or 6-digit hex color pattern is a hard error (`none`),
never a silently returned value. -/
theorem C7_hexToRgbA :
    hexToRgbA "#ffffff" = some { r := 255, g := 255, b := 255, alpha := 1 } ∧
    hexToRgbA "#fff" = hexToRgbA "#ffffff" ∧
    hexToRgbA "notacolor" = none ∧
    (∀ s : String, matchesHexColor s = false → hexToRgbA s = none) := by
  refine ⟨by decide, by decide, by decide, ?_⟩
  intro s h
  unfold hexToRgbA
  rw [h]
  rfl

/-- Witness for C7 rejecting one more malformed color. -/
theorem C7_witness : hexToRgbA "#12345" = none :=
  C7_hexToRgbA.2.2.2 "#12345" (by decide)

/-- Counterexample for C8: with no requested transforms the composited
image of width 600 is still resized — applyTransformations always
requests a resize to half the width, so the dimensions are not left
unchanged when no scale is requested. -/
theorem C8_counterexample :
    applyTransformations (some 600) noParams = [ImgOp.resize 300] ∧
    ImgOp.resize 300 ≠ ImgOp.resize 600 := by
  decide

/-- C8 as amended: transforms are requested in the order mirror (flop),
then rotate with a fully transparent fill, then resize; the resize target
is always half the original width rounded, multiplied further by the
scale parameter when one is given, so absent a scale the image is halved
rather than left unchanged. -/
theorem C8_amended_transform_order (w : Nat) (d : Int) (s : Nat)
    (hd : d ≠ 0) (hs : s ≠ 0) :
    (applyTransformations (some w)
        { noParams with mirror := some true, rotate := some d, scale := some s }
      = [ImgOp.flop, ImgOp.rotate d transparentFill, ImgOp.resize (halfWidth w * s)]) ∧
    (applyTransformations (some w)
        { noParams with mirror := some true, rotate := some d }
      = [ImgOp.flop, ImgOp.rotate d transparentFill, ImgOp.resize (halfWidth w)]) ∧
    (∀ (ow : Option Nat) (p : Params) (deg : Int) (bg : Rgba),
      ImgOp.rotate deg bg ∈ applyTransformations ow p → bg = transparentFill) := by
  refine ⟨?_, ?_, ?_⟩
  · simp [applyTransformations, noParams, optBoolTruthy, transparentFill, hd, hs]
  · simp [applyTransformations, noParams, optBoolTruthy, transparentFill, hd]
  · intro ow p deg bg h
    unfold applyTransformations at h
    rcases List.mem_append.mp h with h | h
    · rcases List.mem_append.mp h with h | h
      · split at h <;> simp at h
      · rcases hr : p.rotate with _ | d2
        · simp [hr] at h
        · simp only [hr] at h
          split at h <;> simp at h
          exact h.2
    · rcases how : ow with _ | w2
      · simp [how] at h
      · simp [how] at h

/-- Witness for C8's amended statement at width 600, angle 90, scale 2. -/
theorem C8_witness :
    applyTransformations (some 600)
        { noParams with mirror := some true, rotate := some 90, scale := some 2 }
      = [ImgOp.flop, ImgOp.rotate 90 transparentFill, ImgOp.resize 600] :=
  (C8_amended_transform_order 600 90 2 (by decide) (by decide)).1

theorem api_call_hit (fsys : String → List String) (dirname : String)
    (files argv : List String) (rand : String) (argSeed theme : Option String)
    (p : Params) (h : files.contains (cachePathOf argSeed theme p) = true) :
    api_call fsys dirname files argv rand argSeed theme p
      = { files := files, result := CallResult.ok (cachePathOf argSeed theme p)
          rendered := false, seedUsed := none, selection := [] } := by
  unfold api_call
  rw [if_pos h]

theorem api_call_miss_ok (fsys : String → List String) (dirname : String)
    (files argv : List String) (rand : String) (argSeed theme : Option String)
    (p : Params) (c : Rgba × Rgba × Rgba)
    (h : ¬ files.contains (cachePathOf argSeed theme p) = true)
    (hcol : parsedColors p = some c) :
    api_call fsys dirname files argv rand argSeed theme p
      = { files := ("_output/" ++ readSeed argv (seedStringOf argSeed rand)
              ++ toString (pathHashOf argSeed theme p) ++ ".png") :: files
          result := CallResult.ok ("_output/" ++ readSeed argv (seedStringOf argSeed rand)
              ++ toString (pathHashOf argSeed theme p) ++ ".png")
          rendered := true
          seedUsed := some (readSeed argv (seedStringOf argSeed rand))
          selection := generateImagePathsFromSeed
            (loadFeaturesFromDir fsys dirname theme p.features)
            (readSeed argv (seedStringOf argSeed rand)) } := by
  unfold api_call
  rw [if_neg h, hcol]

theorem api_call_miss_threw (fsys : String → List String) (dirname : String)
    (files argv : List String) (rand : String) (argSeed theme : Option String)
    (p : Params) (h : ¬ files.contains (cachePathOf argSeed theme p) = true)
    (hcol : parsedColors p = none) :
    api_call fsys dirname files argv rand argSeed theme p
      = { files := files
          result := CallResult.threw "Bad Hex"
          rendered := true
          seedUsed := some (readSeed argv (seedStringOf argSeed rand))
          selection := generateImagePathsFromSeed
            (loadFeaturesFromDir fsys dirname theme p.features)
            (readSeed argv (seedStringOf argSeed rand)) } := by
  unfold api_call
  rw [if_neg h, hcol]

/-- Counterexample for C4: with background red (not valid hex), the first
call throws Bad Hex and writes no artifact, and a second identical call
does not short-circuit — it re-invokes the catalog build and render
pipeline — so the claim fails as universally quantified over params. -/
theorem C4_counterexample :
    (api_call emptyFsys "d" [] [] "r1" (some "foo") none redParams).result
        = CallResult.threw "Bad Hex" ∧
    (api_call emptyFsys "d" [] [] "r1" (some "foo") none redParams).files = [] ∧
    (api_call emptyFsys "d"
        (api_call emptyFsys "d" [] [] "r1" (some "foo") none redParams).files
        [] "r2" (some "foo") none redParams).rendered = true := by
  decide

/-- C4 as amended: with no command-line seed override in the process
arguments, a nonempty seed, and color parameters that parse (absent or
valid hex), two api_call invocations with the same seed, theme and
parameters return the same artifact path and the second invocation is a
cache hit that does not run the catalog build and render pipeline; an
invalid color instead throws on both calls (see the counterexample). -/
theorem C4_amended_idempotent_cache (fsys : String → List String) (dirname : String)
    (files argv : List String) (rand1 rand2 s : String) (theme : Option String)
    (p : Params) (hargv : ¬ 2 < argv.length) (hs : s ≠ "")
    (hcol : (parsedColors p).isSome = true) :
    (api_call fsys dirname files argv rand1 (some s) theme p).result
      = CallResult.ok (cachePathOf (some s) theme p) ∧
    (api_call fsys dirname
        (api_call fsys dirname files argv rand1 (some s) theme p).files
        argv rand2 (some s) theme p).result
      = CallResult.ok (cachePathOf (some s) theme p) ∧
    (api_call fsys dirname
        (api_call fsys dirname files argv rand1 (some s) theme p).files
        argv rand2 (some s) theme p).rendered = false := by
  obtain ⟨c, hc⟩ := Option.isSome_iff_exists.mp hcol
  have hseed : readSeed argv (seedStringOf (some s) rand1) = s := by
    unfold readSeed seedStringOf
    rw [if_neg hargv]
    show (if s = "" then rand1 else s) = s
    rw [if_neg hs]
  by_cases hcache : files.contains (cachePathOf (some s) theme p) = true
  · rw [api_call_hit fsys dirname files argv rand1 (some s) theme p hcache]
    rw [api_call_hit fsys dirname files argv rand2 (some s) theme p hcache]
    exact ⟨rfl, rfl, rfl⟩
  · rw [api_call_miss_ok fsys dirname files argv rand1 (some s) theme p c hcache hc]
    have hpath : "_output/" ++ readSeed argv (seedStringOf (some s) rand1)
        ++ toString (pathHashOf (some s) theme p) ++ ".png"
        = cachePathOf (some s) theme p := by
      rw [hseed]
      rfl
    have hc2 : ((cachePathOf (some s) theme p) :: files).contains
        (cachePathOf (some s) theme p) = true := by
      simp [List.elem_eq_mem]
    rw [hpath]
    rw [api_call_hit fsys dirname _ argv rand2 (some s) theme p hc2]
    exact ⟨rfl, rfl, rfl⟩

/-- Witness for C4's amended statement: two concrete calls with seed foo
and parsable (absent) colors share a path and the second does not render. -/
theorem C4_witness :
    (api_call emptyFsys "d" [] [] "r1" (some "foo") none noParams).result
      = CallResult.ok (cachePathOf (some "foo") none noParams) ∧
    (api_call emptyFsys "d"
        (api_call emptyFsys "d" [] [] "r1" (some "foo") none noParams).files
        [] "r2" (some "foo") none noParams).result
      = CallResult.ok (cachePathOf (some "foo") none noParams) ∧
    (api_call emptyFsys "d"
        (api_call emptyFsys "d" [] [] "r1" (some "foo") none noParams).files
        [] "r2" (some "foo") none noParams).rendered = false :=
  C4_amended_idempotent_cache emptyFsys "d" [] [] "r1" "r2" "foo" none noParams
    (by decide) (by decide) (by decide)

/-- C9: readSeed returns the third process argument whenever the argument
vector has more than two entries and the supplied default otherwise, so an
api_call that runs the pipeline in such a process selects assets with
that argument as seed, and any path it returns is named after that
argument rather than the seed it was passed. -/
theorem C9_argv_seed_override (argv : List String) (fsys : String → List String)
    (dirname : String) (files : List String) (rand d : String)
    (argSeed theme : Option String) (p : Params) (h2 : 2 < argv.length) :
    readSeed argv d = argv.getD 2 "" ∧
    (∀ (argv2 : List String) (d2 : String), ¬ 2 < argv2.length → readSeed argv2 d2 = d2) ∧
    ((api_call fsys dirname files argv rand argSeed theme p).rendered = true →
      (api_call fsys dirname files argv rand argSeed theme p).seedUsed
          = some (argv.getD 2 "") ∧
      (∀ out : String,
        (api_call fsys dirname files argv rand argSeed theme p).result
            = CallResult.ok out →
          out = "_output/" ++ argv.getD 2 "" ++ toString (pathHashOf argSeed theme p)
            ++ ".png")) := by
  have hread : readSeed argv d = argv.getD 2 "" := by
    unfold readSeed
    rw [if_pos h2]
  refine ⟨hread, ?_, ?_⟩
  · intro argv2 d2 hn
    unfold readSeed
    rw [if_neg hn]
  · intro hr
    have hseed : readSeed argv (seedStringOf argSeed rand) = argv.getD 2 "" := by
      unfold readSeed
      rw [if_pos h2]
    by_cases hcache : files.contains (cachePathOf argSeed theme p) = true
    · rw [api_call_hit fsys dirname files argv rand argSeed theme p hcache] at hr
      simp at hr
    · cases hcol : parsedColors p with
      | some c =>
        rw [api_call_miss_ok fsys dirname files argv rand argSeed theme p c hcache hcol]
        rw [hseed]
        refine ⟨rfl, ?_⟩
        intro out hout
        injection hout with h
        exact h.symm
      | none =>
        rw [api_call_miss_threw fsys dirname files argv rand argSeed theme p hcache hcol]
        rw [hseed]
        refine ⟨rfl, ?_⟩
        intro out hout
        simp at hout

/-- Witness for C9: a process launched with a third argument overrides the
seed passed to api_call. -/
theorem C9_witness :
    (api_call emptyFsys "d" [] ["node", "x", "cliSeed"] "r" (some "foo") none
        noParams).seedUsed = some "cliSeed" :=
  (((C9_argv_seed_override ["node", "x", "cliSeed"] emptyFsys "d" [] "r" "foo"
      (some "foo") none noParams (by decide)).2.2) (by decide)).1

end Nicedear
